import Mathlib

/-!
Verification development for the `maysie` command front-end.

This file shallowly embeds the intent-classification and
privileged-execution gatekeeping subsystem of the repository:

* `maysie/system/sudo_handler.py` — credential cache, dangerous-command
  guard, privileged execution (`SudoHandler`);
* `maysie/core/command_router.py` — intent classification and AI
  provider selection (`CommandRouter`);
* `maysie/utils/security.py` — cipher wrapper and credential store
  (`SecurityManager`, `CredentialStore`);
* `maysie/config/manager.py` — the configuration defaults these read.

Python strings are modelled as Lean `String`/`List Char`; wall-clock
instants as `Nat`; the external `sudo` validation probe as an oracle
`String → Bool`; the external Fernet cipher symbolically (see
`FernetToken`).  Machine behaviour that no claim touches (logging,
thread scheduling, file permissions) is not modelled.
-/

namespace Maysie

/-! ## Python string primitives

The Python operations the embedded code uses: `str.lower()`, `str.strip()`,
the substring test `in`, `str.split(sep)` and `str.split(sep, 1)`.
All are defined on `List Char` and lifted to `String`. -/

/-- Python whitespace for `str.strip()` / `\s` (ASCII range). -/
def isPySpace (c : Char) : Bool :=
  c = ' ' || c = '\t' || c = '\n' || c = '\r' || c = '\x0b' || c = '\x0c'

/-- Lowercase a single character, as Python `str.lower()` does on the
ASCII text the embedded code handles. -/
def pyLowerChar (c : Char) : Char := c.toLower

/-- Python `str.lower()`. -/
def pyLower (s : String) : String := ⟨s.data.map pyLowerChar⟩

/-- Python `str.strip()`: drop leading and trailing whitespace. -/
def pyStripList (l : List Char) : List Char :=
  ((l.dropWhile isPySpace).reverse.dropWhile isPySpace).reverse

/-- Python `str.strip()` on `String`. -/
def pyStrip (s : String) : String := ⟨pyStripList s.data⟩

/-- Tests whether `p` is a prefix of `l` (executable). -/
def listStartsWith (p l : List Char) : Bool :=
  match p, l with
  | [], _ => true
  | _ :: _, [] => false
  | a :: p', b :: l' => a = b && listStartsWith p' l'

/-- Tests whether `p` occurs contiguously somewhere in `l` (executable). -/
def listContains (p l : List Char) : Bool :=
  listStartsWith p l ||
    match l with
    | [] => false
    | _ :: l' => listContains p l'

/-- Python's `needle in haystack` substring test. -/
def pyIn (needle haystack : String) : Bool :=
  listContains needle.data haystack.data

/-- Python truthiness-based `a or b` for optional strings:
`None` and `""` both fall through to `b`. -/
def pyOrStr (a : Option String) (b : Option String) : Option String :=
  match a with
  | some s => if s = "" then b else some s
  | none => b

/-- Python truthiness-based `a or b` for optional integers:
`None` and `0` both fall through to `b`
(`timeout or self.config.sudo.cache_timeout`). -/
def pyOrNat (a : Option Nat) (b : Nat) : Nat :=
  match a with
  | some n => if n = 0 then b else n
  | none => b

/-! ## Configuration (`maysie/config/manager.py`, `SudoConfig`) -/

/-- Embeds `SudoConfig` from `maysie/config/manager.py`. -/
structure SudoConfig where
  cache_timeout : Nat
  require_confirmation : Bool
  dangerous_commands : List String
deriving Repr, DecidableEq

/-- The `SudoConfig` defaults (`cache_timeout=300`,
`require_confirmation=True`, and the `__post_init__` deny list). -/
def defaultSudoConfig : SudoConfig :=
  { cache_timeout := 300
    require_confirmation := true
    dangerous_commands :=
      ["rm -rf /", "mkfs", "dd if=/dev/zero", ":(){:|:&};:"] }

/-! ## `SudoHandler` (`maysie/system/sudo_handler.py`) -/

/-- Embeds the `CachedCredential` dataclass: a password plus its expiry instant. -/
structure CachedCredential where
  password : String
  expires_at : Nat
deriving Repr, DecidableEq

/-- Embeds `CachedCredential.is_valid`: `datetime.now() < self.expires_at`,
with the current instant passed explicitly. -/
def CachedCredential.is_valid (c : CachedCredential) (now : Nat) : Bool :=
  now < c.expires_at

/-- Errors raised by the embedded `SudoHandler` methods
(`ValueError(...)` in the source, distinguished by message). -/
inductive SudoError where
  /-- Raised as `ValueError("Invalid sudo password")` by `set_password`. -/
  | invalidCredential : SudoError
  /-- Raised as `ValueError("No sudo password available. ...")` by `run_command`. -/
  | noPassword : SudoError
  /-- Raised as `ValueError("Dangerous command blocked: ...")` by `run_command`. -/
  | dangerousBlocked : SudoError
deriving Repr, DecidableEq

/-- Embeds `SudoHandler.get_password`: return the cached password if a
credential is present and still valid, else `None`. -/
def get_password (cache : Option CachedCredential) (now : Nat) : Option String :=
  match cache with
  | some c => if c.is_valid now then some c.password else none
  | none => none

/-- Embeds `SudoHandler.set_password`.  `valid` is the external
`_validate_password` probe (a `sudo -S -v` subprocess) as an oracle.
Returns the new cache state together with the error, if any: on a raised
`ValueError` the assignment `self._cache = ...` is never reached, so the
prior state is returned unchanged. -/
def set_password (cfg : SudoConfig) (valid : String → Bool)
    (cache : Option CachedCredential) (now : Nat)
    (password : String) (timeout : Option Nat) :
    Option CachedCredential × Option SudoError :=
  let timeout_seconds := pyOrNat timeout cfg.cache_timeout
  let expires_at := now + timeout_seconds
  if valid password then
    (some ⟨password, expires_at⟩, none)
  else
    (cache, some .invalidCredential)

/-- Embeds `SudoHandler._is_dangerous_command`: deny-list substring scan over the
lower-cased, stripped command, then the `rm -rf` heuristic over the
important-paths list. -/
def is_dangerous_command (cfg : SudoConfig) (command : String) : Bool :=
  let command_lower := pyStrip (pyLower command)
  if cfg.dangerous_commands.any (fun pat => pyIn (pyLower pat) command_lower) then
    true
  else if pyIn "rm" command_lower && pyIn "-rf" command_lower
      && pyIn "/" command_lower then
    let important_paths := ["/", "/usr", "/etc", "/var", "/bin", "/sbin", "/lib"]
    important_paths.any (fun path =>
      pyIn (" " ++ path) command_lower || pyIn ("/" ++ path) command_lower)
  else
    false

/-- Outcome of `SudoHandler.run_command` up to the point where a child
process is (or is not) spawned. -/
inductive RunOutcome where
  /-- A `ValueError` raised before any subprocess is created. -/
  | failed : SudoError → RunOutcome
  /-- Reaches `subprocess.Popen("sudo -S " + command)`, fed `pw`. -/
  | spawned : (command : String) → (pw : String) → RunOutcome
deriving Repr, DecidableEq

/-- Embeds `SudoHandler.run_command`: resolve the password
(`password or self.get_password()`), fail if absent, apply the
dangerous-command guard when confirmation is required, otherwise spawn
the child process. -/
def run_command (cfg : SudoConfig) (cache : Option CachedCredential)
    (now : Nat) (command : String) (password : Option String) : RunOutcome :=
  match pyOrStr password (get_password cache now) with
  | none => .failed .noPassword
  | some sudo_password =>
    if is_dangerous_command cfg command && cfg.require_confirmation then
      .failed .dangerousBlocked
    else
      .spawned command sudo_password

/-! ## Regular expressions

`CommandRouter` matches commands with `re.search`.  The regex dialect is
embedded only as far as the patterns appearing in the source need:
character classes, concatenation, alternation, Kleene star (from which
`+`, `?` are derived) and the word boundary `\b`.  Capture groups affect
only the returned groups, never whether a match exists, so they are
modelled as plain grouping. -/

/-- Character classes occurring in the source patterns. -/
inductive CC where
  /-- A literal character. -/
  | lit (c : Char)
  /-- The class `\s`. -/
  | space
  /-- The class `.` (anything but a newline). -/
  | anyc
  /-- The class `[a-zA-Z0-9\-_\s]` used by the package patterns. -/
  | pkg
deriving Repr, DecidableEq

/-- Python `\w` (ASCII): letters, digits and underscore. -/
def isWordChar (c : Char) : Bool := c.isAlphanum || c = '_'

/-- Does character `c` belong to class `cc`? -/
def ccMatch : CC → Char → Bool
  | .lit a, c => a = c
  | .space, c => isPySpace c
  | .anyc, c => c ≠ '\n'
  | .pkg, c => c.isAlphanum || c = '-' || c = '_' || isPySpace c

/-- Regular-expression syntax needed by the source patterns. -/
inductive Pat where
  /-- The empty word. -/
  | eps
  /-- One character from a class. -/
  | cls (cc : CC)
  /-- Concatenation. -/
  | cat (p q : Pat)
  /-- Alternation. -/
  | alt (p q : Pat)
  /-- Kleene star. -/
  | star (p : Pat)
  /-- The zero-width word boundary `\b`. -/
  | wordB
deriving Repr, DecidableEq

/-- Size of a pattern, used to pick an adequate recursion budget. -/
def patSize : Pat → Nat
  | .eps => 1
  | .cls _ => 1
  | .wordB => 1
  | .cat p q => patSize p + patSize q + 1
  | .alt p q => patSize p + patSize q + 1
  | .star p => patSize p + 1

/-- Is the optional character a word character (`false` at the string's
edge)?  Used for `\b`. -/
def optWord : Option Char → Bool
  | some c => isWordChar c
  | none => false

/-- Word boundary between a previous and a next character: exactly one
side is a word character. -/
def wordBoundary (prev next : Option Char) : Bool :=
  optWord prev != optWord next

/-- All ways pattern `p` can match a prefix of `l`: each result is the
character just before the unconsumed remainder (for later boundary
checks) paired with that remainder.  `prev` is the character just before
`l` in the overall subject.  Star iterations must consume at least one
character (which preserves matchability), and `fuel` bounds the
recursion depth; `reSearch` passes a budget that can never be exhausted
on its pattern and subject. -/
def mrun : Nat → Pat → Option Char → List Char → List (Option Char × List Char)
  | 0, _, _, _ => []
  | _ + 1, .eps, prev, l => [(prev, l)]
  | _ + 1, .cls _, _, [] => []
  | _ + 1, .cls cc, _, c :: l' => if ccMatch cc c then [(some c, l')] else []
  | _ + 1, .wordB, prev, l => if wordBoundary prev l.head? then [(prev, l)] else []
  | fuel + 1, .cat p q, prev, l =>
      (mrun fuel p prev l).flatMap fun pr => mrun fuel q pr.1 pr.2
  | fuel + 1, .alt p q, prev, l => mrun fuel p prev l ++ mrun fuel q prev l
  | fuel + 1, .star p, prev, l =>
      (prev, l) ::
        ((mrun fuel p prev l).filter fun pr => pr.2.length < l.length).flatMap
          fun pr => mrun fuel (.star p) pr.1 pr.2

/-- Does `p` match starting at some position of `l`, where `prev` is the
character before `l`?  Tries every start position, as `re.search` does. -/
def searchFrom (fuel : Nat) (p : Pat) (prev : Option Char) (l : List Char) : Bool :=
  !(mrun fuel p prev l).isEmpty ||
    match l with
    | [] => false
    | c :: l' => searchFrom fuel p (some c) l'

/-- Embeds `re.search(pattern, s)` as a boolean: does `pattern` match
anywhere in `s`?  The fuel is generous: recursion depth is bounded by
the pattern size times the number of characters a star chain can
consume. -/
def reSearch (p : Pat) (s : String) : Bool :=
  searchFrom ((patSize p + 2) * (s.data.length + 2)) p none s.data

/-- A literal string as a pattern. -/
def strLit (s : String) : Pat :=
  s.data.foldr (fun c acc => .cat (.cls (.lit c)) acc) .eps

/-- An alternation of literal words, e.g. `install|setup`. -/
def altOf : List String → Pat
  | [] => .eps
  | [w] => strLit w
  | w :: ws => .alt (strLit w) (altOf ws)

/-- One or more repetitions, `p+`. -/
def plusOf (p : Pat) : Pat := .cat p (.star p)

/-- Zero or one repetition, `p?`. -/
def optOf (p : Pat) : Pat := .alt p .eps

/-- The sub-pattern `\s+`. -/
def wsPlus : Pat := plusOf (.cls .space)

/-- The sub-pattern `\s*`. -/
def wsStar : Pat := .star (.cls .space)

/-- The sub-pattern `(.+)` (also `(.+?)`: laziness affects captures,
not matchability). -/
def anyPlus : Pat := plusOf (.cls .anyc)

/-- The sub-pattern `([a-zA-Z0-9\-_\s]+)`. -/
def pkgPlus : Pat := plusOf (.cls .pkg)

/-! ## `CommandRouter` (`maysie/core/command_router.py`) -/

/-- Embeds the `system_patterns` dict of `CommandRouter._classify_intent`,
in declaration order.  Note `processes?` makes only the final `s`
optional, so it matches `processe` or `processes`. -/
def systemPatterns : List (String × Pat) :=
  [ ("package_install",
      .cat .wordB (.cat (altOf ["install", "setup"]) (.cat wsPlus pkgPlus))),
    ("package_uninstall",
      .cat .wordB (.cat (altOf ["uninstall", "remove"]) (.cat wsPlus pkgPlus))),
    ("package_update",
      .cat .wordB (.cat (altOf ["update", "upgrade"]) (.cat wsPlus
        (.alt (strLit "system") (.cat (strLit "package") (optOf (.cls (.lit 's')))))))),
    ("file_create",
      .cat .wordB (.cat (strLit "create") (.cat wsPlus
        (.cat (altOf ["file", "folder", "directory"]) (.cat wsPlus anyPlus))))),
    ("file_move",
      .cat .wordB (.cat (strLit "move") (.cat wsPlus
        (.cat anyPlus (.cat wsPlus (.cat (strLit "to") (.cat wsPlus anyPlus))))))),
    ("file_delete",
      .cat .wordB (.cat (strLit "delete") (.cat wsPlus
        (.cat (optOf (altOf ["file", "folder"])) (.cat wsStar anyPlus))))),
    ("file_find",
      .cat .wordB (.cat (strLit "find") (.cat wsPlus
        (.cat anyPlus (.cat wsPlus (.cat (strLit "in") (.cat wsPlus anyPlus))))))),
    ("file_list",
      .cat .wordB (.cat (strLit "list") (.cat wsPlus anyPlus))),
    ("process_kill",
      .cat .wordB (.cat (strLit "kill") (.cat wsPlus anyPlus))),
    ("process_list",
      .cat .wordB (.cat (strLit "list") (.cat wsPlus
        (.cat (optOf (.cat (strLit "all") wsPlus))
          (.cat (strLit "processe") (.cat (optOf (.cls (.lit 's')))
            (.cat wsStar (optOf anyPlus)))))))),
    ("app_launch",
      .cat .wordB (.cat (altOf ["launch", "open", "start"]) (.cat wsPlus anyPlus))) ]

/-- Embeds one entry of `AIConfig.routing_rules`
(`AIRoutingRule` in `maysie/config/manager.py`). -/
structure RoutingRule where
  pattern : Pat
  provider : String
  priority : Int
deriving Repr

/-- The slice of `AIConfig` that `_select_ai_provider` reads. -/
structure AIConfig where
  default_provider : String
  routing_rules : List RoutingRule

/-- The `AIConfig` defaults from `__post_init__` in
`maysie/config/manager.py`: `default_provider="auto"` and the three
stock routing rules (alternations of literal words). -/
def defaultAIConfig : AIConfig :=
  { default_provider := "auto"
    routing_rules :=
      [ ⟨altOf ["research", "latest", "news", "current"], "gemini", 10⟩,
        ⟨altOf ["code", "script", "program", "debug", "function"], "deepseek", 10⟩,
        ⟨altOf ["decide", "compare", "analyze", "recommend", "choose"], "chatgpt", 10⟩ ] }

/-- The keys of `self.ai_providers` built by
`CommandRouter._load_ai_providers`: always these three, whether or not
an API key was found for them. -/
def aiProviderNames : List String := ["gemini", "chatgpt", "deepseek"]

/-- Embeds `CommandRouter._select_ai_provider`: first routing rule whose
pattern matches the lower-cased command and whose provider is a key of
`ai_providers` wins; otherwise the configured default if it is not
`"auto"` and is such a key; otherwise `"gemini"`. -/
def select_ai_provider (cfg : AIConfig) (command : String) : String :=
  let command_lower := pyLower command
  match cfg.routing_rules.find? (fun rule =>
      reSearch rule.pattern command_lower && aiProviderNames.contains rule.provider) with
  | some rule => rule.provider
  | none =>
    if cfg.default_provider != "auto" && aiProviderNames.contains cfg.default_provider then
      cfg.default_provider
    else
      "gemini"

/-- Provider selection as the C5 sentence of the spec words it:
availability means registered **and** credentialed, and an unavailable
provider named by a rule or the default is skipped.  Written from the
spec for comparison with `select_ai_provider`; `configured` tells
whether a provider holds an API key (`BaseAIProvider.is_configured`). -/
def select_ai_provider_specC5 (configured : String → Bool) (cfg : AIConfig)
    (command : String) : String :=
  let command_lower := pyLower command
  match cfg.routing_rules.find? (fun rule =>
      reSearch rule.pattern command_lower &&
        (aiProviderNames.contains rule.provider && configured rule.provider)) with
  | some rule => rule.provider
  | none =>
    if cfg.default_provider != "auto" &&
        (aiProviderNames.contains cfg.default_provider && configured cfg.default_provider) then
      cfg.default_provider
    else
      "gemini"

/-- The classification result of `_classify_intent`.  The captured
groups of a system match are not modelled: no claim inspects them. -/
inductive Intent where
  /-- A system-action intent with its subtype name. -/
  | system (subtype : String)
  /-- An AI-query intent with the selected provider. -/
  | ai (provider : String)
deriving Repr, DecidableEq

/-- Embeds `CommandRouter._classify_intent`: the first system pattern
matching the lower-cased command wins; otherwise the command is an AI
query for the selected provider. -/
def classify_intent (cfg : AIConfig) (command : String) : Intent :=
  let command_lower := pyLower command
  match systemPatterns.find? (fun ip => reSearch ip.2 command_lower) with
  | some ip => .system ip.1
  | none => .ai (select_ai_provider cfg command)

/-! ## `SecurityManager` (`maysie/utils/security.py`) -/

/-- Modelled from the spec: the Fernet cipher of the external
`cryptography` library (not part of this repository) is an
*authenticated* symmetric scheme — decryption under a key succeeds
exactly on tokens produced under that same key, and then returns the
original plaintext (§4.5: "`decrypt` of ciphertext not produced by the
currently-loaded key must fail with a distinguishable decryption error,
never silently return garbage").  It is idealized symbolically: a token
records the producing key and the payload. -/
structure FernetToken where
  key : Nat
  payload : String
deriving Repr, DecidableEq

/-- Modelled from the spec: `Fernet(key).encrypt` (see `FernetToken`). -/
def fernetEncrypt (key : Nat) (data : String) : FernetToken := ⟨key, data⟩

/-- Modelled from the spec: `Fernet(key).decrypt` (see `FernetToken`) —
verify the token was produced under `key`, else raise. -/
def fernetDecrypt (key : Nat) (tok : FernetToken) : Option String :=
  if tok.key = key then some tok.payload else none

/-- The error surfaced when the cipher raises
(`InvalidToken` re-raised by `SecurityManager.decrypt`). -/
inductive CipherError where
  /-- Decryption failed: token unauthenticatable under the loaded key. -/
  | cipherFailure : CipherError
deriving Repr, DecidableEq

/-- Embeds `SecurityManager.encrypt`: UTF-8 encode, cipher, return the
ciphertext (the encode/decode pair is the identity on our `String`
model). -/
def sm_encrypt (key : Nat) (data : String) : FernetToken :=
  fernetEncrypt key data

/-- Embeds `SecurityManager.decrypt`: cipher-decrypt the data,
re-raising the cipher's failure. -/
def sm_decrypt (key : Nat) (tok : FernetToken) : Except CipherError String :=
  match fernetDecrypt key tok with
  | some s => .ok s
  | none => .error .cipherFailure

/-! ## `CredentialStore` (`maysie/utils/security.py`) -/

/-- A Python `dict[str, str]` as an insertion-ordered association list:
`d[k] = v` updates in place when the key exists, else appends. -/
def dictSet (m : List (String × String)) (k v : String) : List (String × String) :=
  match m with
  | [] => [(k, v)]
  | (k', v') :: rest =>
    if k' = k then (k', v) :: rest else (k', v') :: dictSet rest k v

/-- Python `dict.get`: the value stored at `k`, if any. -/
def dictGet (m : List (String × String)) (k : String) : Option String :=
  match m with
  | [] => none
  | (k', v') :: rest => if k' = k then some v' else dictGet rest k

/-- Python `s.split(sep)` for a single-character separator: always
returns at least one (possibly empty) piece. -/
def splitOnChar (sep : Char) (l : List Char) : List (List Char) :=
  match l with
  | [] => [[]]
  | c :: rest =>
    let r := splitOnChar sep rest
    if c = sep then [] :: r
    else
      match r with
      | [] => [[c]]
      | h :: t => (c :: h) :: t

/-- Python `s.split(sep, 1)` after an `in` check: `none` when `sep` does
not occur, else the pieces before and after its first occurrence. -/
def splitFirstAt (sep : Char) (l : List Char) : Option (List Char × List Char) :=
  match l with
  | [] => none
  | c :: rest =>
    if c = sep then some ([], rest)
    else (splitFirstAt sep rest).map (fun pr => (c :: pr.1, pr.2))

/-- Python `'\n'.join(lines)` on character lists. -/
def joinLines : List (List Char) → List Char
  | [] => []
  | [l] => l
  | l :: rest => l ++ '\n' :: joinLines rest

/-- Embeds the serialization in `CredentialStore._save`:
`'\n'.join(f"{k}={v}" for k, v in self._credentials.items())`. -/
def serializeCreds (m : List (String × String)) : String :=
  ⟨joinLines (m.map fun kv => kv.1.data ++ '=' :: kv.2.data)⟩

/-- Embeds the parsing loop in `CredentialStore._load`: split the
decrypted text into lines; each line containing `=` is split at its
first `=` and both halves are stripped. -/
def parseCreds (s : String) : List (String × String) :=
  (splitOnChar '\n' s.data).foldl
    (fun m line =>
      match splitFirstAt '=' line with
      | some kv => dictSet m ⟨pyStripList kv.1⟩ ⟨pyStripList kv.2⟩
      | none => m)
    []

/-- Embeds `CredentialStore._save`: serialize the whole mapping,
encrypt it with the store's cipher key, and overwrite the backing file
with the resulting single blob. -/
def store_save (key : Nat) (creds : List (String × String)) : FernetToken :=
  sm_encrypt key (serializeCreds creds)

/-- Embeds `CredentialStore._load` for a fresh store instance: a missing
file, or one whose blob fails to decrypt, yields the empty mapping (the
exception is caught); otherwise the decrypted text is parsed.  (The
`encrypted_data.strip()` guard always passes on a written blob: Fernet
ciphertext text is never empty.) -/
def store_load (key : Nat) (file : Option FernetToken) : List (String × String) :=
  match file with
  | none => []
  | some tok =>
    match sm_decrypt key tok with
    | .ok s => parseCreds s
    | .error _ => []

/-- Embeds `CredentialStore.set`: update the in-memory mapping, then
`_save`; returns the new mapping and the file contents written. -/
def store_set (key : Nat) (creds : List (String × String)) (k v : String) :
    List (String × String) × FernetToken :=
  let creds' := dictSet creds k v
  (creds', store_save key creds')

/-- Embeds `CredentialStore.get` with its default of `None`. -/
def store_get (creds : List (String × String)) (k : String) : Option String :=
  dictGet creds k

/-- Keys and values surviving the `name=value` line format unchanged:
the key holds no `=` and no newline, the value no newline, and both are
invariant under `strip()`.  (These hold for every credential the router
stores: `gemini_api_key` and friends.) -/
def cleanPair (kv : String × String) : Bool :=
  decide ('=' ∉ kv.1.data) && decide ('\n' ∉ kv.1.data) &&
    decide (pyStripList kv.1.data = kv.1.data) &&
    decide ('\n' ∉ kv.2.data) &&
    decide (pyStripList kv.2.data = kv.2.data)

/-! ## Theorems: `SudoHandler` claims -/

/-- C1 (counterexample): with no cached credential (and no password
argument), `run_command "rm -rf /"` — a command containing the
configured deny pattern `"rm -rf /"` — fails with the *no password*
condition, not with *dangerous command blocked*: the password check
precedes the guard, so the failure condition is not independent of the
cache state as the claim requires. -/
theorem c1_counterexample :
    run_command defaultSudoConfig none 0 "rm -rf /" none =
      .failed .noPassword ∧
    RunOutcome.failed .noPassword ≠ RunOutcome.failed .dangerousBlocked ∧
    defaultSudoConfig.dangerous_commands.any
      (fun pat => pyIn (pyLower pat) (pyStrip (pyLower "rm -rf /"))) = true := by
  decide

/-- C1 (amended): for every command containing a configured deny
pattern, provided `require_confirmation` is set, `run_command` never
reaches the child-process spawn: it fails with the no-password
condition when no password is supplied or cached, and with the
dangerous-command-blocked condition otherwise. -/
theorem c1_amended_blocked_or_no_password
    (cfg : SudoConfig) (cache : Option CachedCredential) (now : Nat)
    (cmd : String) (pw : Option String)
    (hconf : cfg.require_confirmation = true)
    (hdeny : ∃ pat ∈ cfg.dangerous_commands,
      pyIn (pyLower pat) (pyStrip (pyLower cmd)) = true) :
    (∀ c p, run_command cfg cache now cmd pw ≠ .spawned c p) ∧
    (pyOrStr pw (get_password cache now) = none →
      run_command cfg cache now cmd pw = .failed .noPassword) ∧
    (pyOrStr pw (get_password cache now) ≠ none →
      run_command cfg cache now cmd pw = .failed .dangerousBlocked) := by
  have hd : is_dangerous_command cfg cmd = true := by
    obtain ⟨pat, hmem, hin⟩ := hdeny
    unfold is_dangerous_command
    have hany : cfg.dangerous_commands.any
        (fun pat => pyIn (pyLower pat) (pyStrip (pyLower cmd))) = true :=
      List.any_eq_true.mpr ⟨pat, hmem, hin⟩
    simp [hany]
  cases hpw : pyOrStr pw (get_password cache now) with
  | none => simp [run_command, hpw]
  | some s => simp [run_command, hpw, hd, hconf]

/-- C1 (witness for the amended theorem): concrete instances of both
failure modes for the deny-listed command `"rm -rf /"`. -/
theorem c1_amended_witness :
    defaultSudoConfig.require_confirmation = true ∧
    (∃ pat ∈ defaultSudoConfig.dangerous_commands,
      pyIn (pyLower pat) (pyStrip (pyLower "rm -rf /")) = true) ∧
    run_command defaultSudoConfig (some ⟨"pw", 10⟩) 0 "rm -rf /" none =
      .failed .dangerousBlocked := by
  refine ⟨by decide, by decide, ?_⟩
  exact (c1_amended_blocked_or_no_password defaultSudoConfig (some ⟨"pw", 10⟩) 0
    "rm -rf /" none (by decide) (by decide)).2.2 (by decide)

/-- C2: a cached credential is exposed by `get_password` exactly while
`now < expires_at`; caching a secret that validates exposes it
immediately, and once the effective timeout has elapsed `get_password`
returns `none` even though the entry has not been cleared. -/
theorem c2_credential_exposure
    (cfg : SudoConfig) (valid : String → Bool) (cache : Option CachedCredential)
    (now : Nat) (secret : String) (t : Option Nat)
    (hv : valid secret = true) (ht : 0 < pyOrNat t cfg.cache_timeout) :
    (∀ (cache' : Option CachedCredential) (now' : Nat) (s : String),
      get_password cache' now' = some s ↔
        ∃ c, cache' = some c ∧ now' < c.expires_at ∧ s = c.password) ∧
    get_password (set_password cfg valid cache now secret t).1 now = some secret ∧
    (∀ later, now + pyOrNat t cfg.cache_timeout ≤ later →
      get_password (set_password cfg valid cache now secret t).1 later = none) := by
  refine ⟨?_, ?_, ?_⟩
  · intro cache' now' s
    cases cache' with
    | none => simp [get_password]
    | some c =>
      by_cases h : now' < c.expires_at
      · simp [get_password, CachedCredential.is_valid, h, eq_comm]
      · simp [get_password, CachedCredential.is_valid, h]
  · simp [set_password, get_password, CachedCredential.is_valid, hv, ht]
  · intro later hlater
    have : ¬ later < now + pyOrNat t cfg.cache_timeout := by omega
    simp [set_password, get_password, CachedCredential.is_valid, hv, this]

/-- C2 (witness): caching `"hunter2"` under a validating oracle with
the default timeout exposes it immediately at the same instant. -/
theorem c2_witness :
    ((fun _ => true) "hunter2" = true) ∧
    0 < pyOrNat none defaultSudoConfig.cache_timeout ∧
    get_password
      (set_password defaultSudoConfig (fun _ => true) none 0 "hunter2" none).1 0 =
      some "hunter2" :=
  ⟨rfl, by decide,
    (c2_credential_exposure defaultSudoConfig (fun _ => true) none 0 "hunter2" none
      rfl (by decide)).2.1⟩

/-- C3: when the secret fails validation, `set_password` reports the
invalid-credential error and returns the cache exactly as it was — any
previously cached credential survives with its original expiry, and
the invalid secret is never stored. -/
theorem c3_invalid_secret_leaves_cache
    (cfg : SudoConfig) (valid : String → Bool) (cache : Option CachedCredential)
    (now : Nat) (secret : String) (t : Option Nat)
    (hv : valid secret = false) :
    set_password cfg valid cache now secret t = (cache, some .invalidCredential) := by
  simp [set_password, hv]

/-- C3 (witness): an invalid secret leaves a previously cached
credential in place, expiry included. -/
theorem c3_witness :
    ((fun _ => false) "bad" = false) ∧
    set_password defaultSudoConfig (fun _ => false) (some ⟨"old", 99⟩) 0 "bad" none =
      (some ⟨"old", 99⟩, some .invalidCredential) :=
  ⟨rfl, c3_invalid_secret_leaves_cache defaultSudoConfig (fun _ => false)
    (some ⟨"old", 99⟩) 0 "bad" none rfl⟩

/-- C7 (counterexample): `"rm -rf etc"` contains the recursive-delete
flags and a reference *without* a leading path separator to the
protected directory `etc`, yet `_is_dangerous_command` returns `false`
— both under the default deny list and with the deny list emptied (the
claim demands the heuristic fire independently of the deny list). -/
theorem c7_counterexample :
    is_dangerous_command { defaultSudoConfig with dangerous_commands := [] }
      "rm -rf etc" = false ∧
    is_dangerous_command defaultSudoConfig "rm -rf etc" = false ∧
    pyIn "rm" (pyStrip (pyLower "rm -rf etc")) = true ∧
    pyIn "-rf" (pyStrip (pyLower "rm -rf etc")) = true ∧
    pyIn "etc" (pyStrip (pyLower "rm -rf etc")) = true := by
  decide

/-- C7 (amended): independently of the deny list, the heuristic flags
exactly the commands that contain `rm`, `-rf` and `/` as substrings
together with an occurrence of a protected top-level directory that is
preceded by a space or by a (second) slash; bare references with no
leading separator are outside the heuristic. -/
theorem c7_amended_heuristic
    (cfg : SudoConfig) (cmd : String)
    (h1 : pyIn "rm" (pyStrip (pyLower cmd)) = true)
    (h2 : pyIn "-rf" (pyStrip (pyLower cmd)) = true)
    (h3 : pyIn "/" (pyStrip (pyLower cmd)) = true)
    (h4 : ∃ path ∈ (["/", "/usr", "/etc", "/var", "/bin", "/sbin", "/lib"] : List String),
      pyIn (" " ++ path) (pyStrip (pyLower cmd)) = true ∨
        pyIn ("/" ++ path) (pyStrip (pyLower cmd)) = true) :
    is_dangerous_command cfg cmd = true := by
  by_cases hd : cfg.dangerous_commands.any
      (fun pat => pyIn (pyLower pat) (pyStrip (pyLower cmd))) = true
  · simp [is_dangerous_command, hd]
  · obtain ⟨path, hmem, hor⟩ := h4
    have hany : (["/", "/usr", "/etc", "/var", "/bin", "/sbin", "/lib"] : List String).any
        (fun path => pyIn (" " ++ path) (pyStrip (pyLower cmd)) ||
          pyIn ("/" ++ path) (pyStrip (pyLower cmd))) = true :=
      List.any_eq_true.mpr ⟨path, hmem, Bool.or_eq_true _ _ |>.mpr hor⟩
    simp [is_dangerous_command, hd, h1, h2, h3, hany]

/-- C7 (witness): `"rm -rf /usr"` is flagged by the heuristic even with
an empty deny list. -/
theorem c7_witness :
    pyIn "rm" (pyStrip (pyLower "rm -rf /usr")) = true ∧
    pyIn "-rf" (pyStrip (pyLower "rm -rf /usr")) = true ∧
    pyIn "/" (pyStrip (pyLower "rm -rf /usr")) = true ∧
    (∃ path ∈ (["/", "/usr", "/etc", "/var", "/bin", "/sbin", "/lib"] : List String),
      pyIn (" " ++ path) (pyStrip (pyLower "rm -rf /usr")) = true ∨
        pyIn ("/" ++ path) (pyStrip (pyLower "rm -rf /usr")) = true) ∧
    is_dangerous_command { defaultSudoConfig with dangerous_commands := [] }
      "rm -rf /usr" = true :=
  ⟨by decide, by decide, by decide, by decide,
    c7_amended_heuristic { defaultSudoConfig with dangerous_commands := [] }
      "rm -rf /usr" (by decide) (by decide) (by decide) (by decide)⟩

/-- C10: an explicit ttl of `0` is falsy, so `timeout or
cache_timeout` replaces it with the configured default: the call
behaves exactly as if the ttl had been omitted, and a validating
secret is cached until `now + cache_timeout`, not immediately
expired. -/
theorem c10_zero_ttl_uses_default
    (cfg : SudoConfig) (valid : String → Bool) (cache : Option CachedCredential)
    (now : Nat) (secret : String) :
    set_password cfg valid cache now secret (some 0) =
      set_password cfg valid cache now secret none ∧
    (valid secret = true →
      (set_password cfg valid cache now secret (some 0)).1 =
        some ⟨secret, now + cfg.cache_timeout⟩) := by
  constructor
  · simp [set_password, pyOrNat]
  · intro hv
    simp [set_password, pyOrNat, hv]

/-- C10 (witness): `set_password(secret, 0)` at instant `5` caches the
secret until `5 + 300` under the default configuration. -/
theorem c10_witness :
    ((fun _ => true) "pw" = true) ∧
    (set_password defaultSudoConfig (fun _ => true) none 5 "pw" (some 0)).1 =
      some ⟨"pw", 5 + defaultSudoConfig.cache_timeout⟩ :=
  ⟨rfl, (c10_zero_ttl_uses_default defaultSudoConfig (fun _ => true) none 5 "pw").2 rfl⟩

/-! ## Theorems: provider-selection claims -/

/-- Unfolding lemma: `_select_ai_provider` examines the head rule first
and otherwise behaves as on the tail (the default fallback does not
depend on the rules). -/
theorem select_ai_provider_cons (default cmd : String) (x : RoutingRule)
    (xs : List RoutingRule) :
    select_ai_provider ⟨default, x :: xs⟩ cmd =
      if reSearch x.pattern (pyLower cmd) && aiProviderNames.contains x.provider then
        x.provider
      else select_ai_provider ⟨default, xs⟩ cmd := by
  cases hx : (reSearch x.pattern (pyLower cmd)
      && aiProviderNames.contains x.provider) with
  | true => simp only [select_ai_provider, List.find?_cons, hx, if_true]
  | false => simp only [select_ai_provider, List.find?_cons, hx, Bool.false_eq_true,
      if_false]

/-- C4 (counterexample): with two rules matching `"foo"`, the earlier
rule naming the unregistered provider `"mistral"` (priority 0) and the
later naming `"chatgpt"` (priority 10), selection returns `"chatgpt"` —
the provider of the *later*, higher-priority rule — not the provider of
the earliest matching rule as the claim states. -/
theorem c4_counterexample :
    reSearch (strLit "foo") (pyLower "foo") = true ∧
    select_ai_provider
      ⟨"auto", [⟨strLit "foo", "mistral", 0⟩, ⟨strLit "foo", "chatgpt", 10⟩]⟩
      "foo" = "chatgpt" ∧
    ("chatgpt" : String) ≠ "mistral" ∧ ((0 : Int) < 10) := by
  decide

/-- C4 (amended): selection returns the provider of the earliest rule
that matches *and* names a registered provider, regardless of what any
later rule's priority says; and the priority field never influences the
result — two rule lists agreeing on patterns and providers select
identically. -/
theorem c4_amended_first_match_priority_ignored
    (default cmd : String) (pre post : List RoutingRule) (r : RoutingRule)
    (hr : (reSearch r.pattern (pyLower cmd)
      && aiProviderNames.contains r.provider) = true)
    (hpre : ∀ r' ∈ pre, (reSearch r'.pattern (pyLower cmd)
      && aiProviderNames.contains r'.provider) = false) :
    select_ai_provider ⟨default, pre ++ r :: post⟩ cmd = r.provider ∧
    (∀ rules rules' : List RoutingRule,
      rules.map (fun x => (x.pattern, x.provider)) =
        rules'.map (fun x => (x.pattern, x.provider)) →
      select_ai_provider ⟨default, rules⟩ cmd =
        select_ai_provider ⟨default, rules'⟩ cmd) := by
  constructor
  · induction pre with
    | nil => rw [List.nil_append, select_ai_provider_cons, if_pos hr]
    | cons a t ih =>
      have ha := hpre a (by simp)
      have ha' : ¬ ((reSearch a.pattern (pyLower cmd)
          && aiProviderNames.contains a.provider) = true) := by
        rw [ha]; exact Bool.false_ne_true
      rw [List.cons_append, select_ai_provider_cons, if_neg ha']
      exact ih fun r' hr' => hpre r' (by simp [hr'])
  · intro rules rules' hmap
    induction rules generalizing rules' with
    | nil =>
      cases rules' with
      | nil => rfl
      | cons y ys => simp at hmap
    | cons x xs ih =>
      cases rules' with
      | nil => simp at hmap
      | cons y ys =>
        simp only [List.map_cons, List.cons.injEq, Prod.mk.injEq] at hmap
        obtain ⟨⟨hp, hv⟩, hrest⟩ := hmap
        rw [select_ai_provider_cons, select_ai_provider_cons, ← hp, ← hv, ih ys hrest]

/-- C4 (witness for the amended theorem): a non-matching decoy rule of
priority 99 is passed over in favour of the matching `"deepseek"` rule
of priority 0. -/
theorem c4_witness :
    (reSearch (strLit "bar") (pyLower "bar")
      && aiProviderNames.contains "deepseek") = true ∧
    (∀ r' ∈ ([⟨strLit "zzz", "gemini", 99⟩] : List RoutingRule),
      (reSearch r'.pattern (pyLower "bar")
        && aiProviderNames.contains r'.provider) = false) ∧
    select_ai_provider
      ⟨"auto", [⟨strLit "zzz", "gemini", 99⟩] ++ ⟨strLit "bar", "deepseek", 0⟩ :: []⟩
      "bar" = "deepseek" :=
  ⟨by decide, by decide,
    (c4_amended_first_match_priority_ignored "auto" "bar"
      [⟨strLit "zzz", "gemini", 99⟩] [] ⟨strLit "bar", "deepseek", 0⟩
      (by decide) (by decide)).1⟩

/-- C5 (counterexample): with `"gemini"` registered but *not*
credentialed, a rule naming it is **not** skipped: the code returns
`"gemini"` where the claim's availability notion (registered and
credentialed) demands the next candidate `"chatgpt"` — selection never
consults credentials. -/
theorem c5_counterexample :
    select_ai_provider
      ⟨"auto", [⟨strLit "foo", "gemini", 10⟩, ⟨strLit "foo", "chatgpt", 10⟩]⟩
      "foo" = "gemini" ∧
    select_ai_provider_specC5 (fun p => !(p == "gemini"))
      ⟨"auto", [⟨strLit "foo", "gemini", 10⟩, ⟨strLit "foo", "chatgpt", 10⟩]⟩
      "foo" = "chatgpt" ∧
    (fun p => !(p == "gemini")) "gemini" = false ∧
    aiProviderNames.contains "gemini" = true ∧
    ("gemini" : String) ≠ "chatgpt" := by
  decide

/-- C5 (amended): availability at selection time is registration only —
a rule naming an unregistered provider is silently skipped in favour of
the rest of the list, never surfaced as a failure (credential checks
happen at invocation time); and when no rule matches and the default is
`"auto"` or unregistered, selection returns the fixed general-purpose
default `"gemini"`. -/
theorem c5_amended_registration_only
    (r : RoutingRule) (rules : List RoutingRule) (default cmd : String) :
    (aiProviderNames.contains r.provider = false →
      select_ai_provider ⟨default, r :: rules⟩ cmd =
        select_ai_provider ⟨default, rules⟩ cmd) ∧
    ((∀ r' ∈ rules, reSearch r'.pattern (pyLower cmd) = false) →
      default = "auto" ∨ aiProviderNames.contains default = false →
      select_ai_provider ⟨default, rules⟩ cmd = "gemini") := by
  constructor
  · intro hreg
    have h' : ¬ ((reSearch r.pattern (pyLower cmd)
        && aiProviderNames.contains r.provider) = true) := by
      rw [hreg, Bool.and_false]; exact Bool.false_ne_true
    rw [select_ai_provider_cons, if_neg h']
  · intro hnone hdef
    have hfind : rules.find? (fun rule => reSearch rule.pattern (pyLower cmd)
        && aiProviderNames.contains rule.provider) = none := by
      rw [List.find?_eq_none]
      intro x hx
      simp [hnone x hx]
    have hcond : ¬ (((default != "auto") && aiProviderNames.contains default) = true) := by
      rcases hdef with h | h
      · subst h; simp
      · rw [h, Bool.and_false]; exact Bool.false_ne_true
    simp only [select_ai_provider, hfind]
    rw [if_neg hcond]

/-- C5 (witness for the amended theorem): a sole rule naming the
unregistered `"mistral"` is skipped, and with no matching rule and
default `"auto"` selection lands on `"gemini"`. -/
theorem c5_witness :
    aiProviderNames.contains "mistral" = false ∧
    select_ai_provider ⟨"auto", [⟨strLit "x", "mistral", 0⟩]⟩ "x" =
      select_ai_provider ⟨"auto", ([] : List RoutingRule)⟩ "x" ∧
    select_ai_provider ⟨"auto", ([] : List RoutingRule)⟩ "x" = "gemini" :=
  ⟨by decide,
    (c5_amended_registration_only ⟨strLit "x", "mistral", 0⟩ [] "auto" "x").1
      (by decide),
    (c5_amended_registration_only ⟨strLit "x", "mistral", 0⟩ [] "auto" "x").2
      (by simp) (Or.inl rfl)⟩

/-! ## Theorems: cipher and credential store -/

/-- C6: decrypting what was encrypted under the loaded key returns the
original string, and decrypting a token produced under any other key
fails with the distinguishable cipher error — never a different
plaintext. -/
theorem c6_round_trip_and_tamper
    (key altKey : Nat) (s : String) (hne : altKey ≠ key) :
    sm_decrypt key (sm_encrypt key s) = .ok s ∧
    sm_decrypt key (sm_encrypt altKey s) = .error .cipherFailure := by
  constructor
  · simp [sm_decrypt, sm_encrypt, fernetEncrypt, fernetDecrypt]
  · simp [sm_decrypt, sm_encrypt, fernetEncrypt, fernetDecrypt, hne]

/-- C6 (witness): round trip and tamper failure at key 1 vs key 2 on
`"hello"`. -/
theorem c6_witness :
    (2 : Nat) ≠ 1 ∧
    (sm_decrypt 1 (sm_encrypt 1 "hello") = .ok "hello" ∧
      sm_decrypt 1 (sm_encrypt 2 "hello") = .error .cipherFailure) :=
  ⟨by decide, c6_round_trip_and_tamper 1 2 "hello" (by decide)⟩

/-- Splitting at a separator that a prefix avoids peels off that
prefix. -/
theorem splitOnChar_append_sep (sep : Char) (a rest : List Char)
    (ha : sep ∉ a) :
    splitOnChar sep (a ++ sep :: rest) = a :: splitOnChar sep rest := by
  induction a with
  | nil => simp [splitOnChar]
  | cons c a ih =>
    have hc : ¬ c = sep := fun h => ha (h ▸ List.mem_cons_self c a)
    have ha' : sep ∉ a := fun h => ha (List.mem_cons_of_mem c h)
    simp only [List.cons_append, splitOnChar, hc, if_false, List.append_eq]
    rw [ih ha']

/-- Splitting a separator-free list yields that single piece. -/
theorem splitOnChar_no_sep (sep : Char) (l : List Char) (h : sep ∉ l) :
    splitOnChar sep l = [l] := by
  induction l with
  | nil => rfl
  | cons c l ih =>
    have hc : ¬ c = sep := fun he => h (he ▸ List.mem_cons_self c l)
    have h' : sep ∉ l := fun hm => h (List.mem_cons_of_mem c hm)
    simp only [splitOnChar, hc, if_false, ih h']

/-- Python `split('\n')` inverts `'\n'.join` on newline-free lines. -/
theorem splitOnChar_joinLines (ls : List (List Char))
    (h : ∀ l ∈ ls, ('\n' : Char) ∉ l) (hne : ls ≠ []) :
    splitOnChar '\n' (joinLines ls) = ls := by
  induction ls with
  | nil => exact absurd rfl hne
  | cons l ls ih =>
    cases ls with
    | nil => exact splitOnChar_no_sep '\n' l (h l (List.mem_cons_self l []))
    | cons m ms =>
      have hjoin : joinLines (l :: m :: ms) = l ++ '\n' :: joinLines (m :: ms) := rfl
      rw [hjoin, splitOnChar_append_sep '\n' l _ (h l (List.mem_cons_self l _)),
        ih (fun x hx => h x (List.mem_cons_of_mem l hx)) (List.cons_ne_nil m ms)]

/-- Splitting at the first `=` of `k ++ '=' :: v` recovers `k` and `v`
when `k` itself holds no `=`. -/
theorem splitFirstAt_append (k v : List Char) (hk : ('=' : Char) ∉ k) :
    splitFirstAt '=' (k ++ '=' :: v) = some (k, v) := by
  induction k with
  | nil => simp [splitFirstAt]
  | cons c k ih =>
    have hc : ¬ c = '=' := fun h => hk (h ▸ List.mem_cons_self c k)
    have hk' : ('=' : Char) ∉ k := fun h => hk (List.mem_cons_of_mem c h)
    simp only [List.cons_append, splitFirstAt, hc, if_false, List.append_eq]
    rw [ih hk']
    rfl

/-- Inserting a fresh key appends the pair. -/
theorem dictSet_of_not_mem (acc : List (String × String)) (k v : String)
    (h : ∀ kv ∈ acc, kv.1 ≠ k) :
    dictSet acc k v = acc ++ [(k, v)] := by
  induction acc with
  | nil => rfl
  | cons kv acc ih =>
    have h1 : ¬ kv.1 = k := h kv (List.mem_cons_self kv acc)
    simp only [dictSet, h1, if_false, List.cons_append,
      ih fun x hx => h x (List.mem_cons_of_mem kv hx)]

/-- Replaying distinct-keyed pairs through `dictSet` appends them all. -/
theorem foldl_dictSet_eq (m : List (String × String)) :
    ∀ acc, (m.map Prod.fst).Nodup →
    (∀ kv ∈ acc, kv.1 ∉ m.map Prod.fst) →
    m.foldl (fun acc kv => dictSet acc kv.1 kv.2) acc = acc ++ m := by
  induction m with
  | nil => intro acc _ _; simp
  | cons kv m ih =>
    intro acc hnodup hdisj
    have hnodup' : (m.map Prod.fst).Nodup := by
      simpa using hnodup.of_cons
    have hhead : kv.1 ∉ m.map Prod.fst := by
      have := hnodup
      simp only [List.map_cons, List.nodup_cons] at this
      exact this.1
    have hset : dictSet acc kv.1 kv.2 = acc ++ [kv] := by
      have := dictSet_of_not_mem acc kv.1 kv.2 (fun x hx => by
        intro he
        exact hdisj x hx (by simp [he]))
      simpa using this
    rw [List.foldl_cons, hset, ih (acc ++ [kv]) hnodup' ?_]
    · simp
    · intro x hx
      rcases List.mem_append.mp hx with hx | hx
      · exact fun hel => hdisj x hx (by simp [hel])
      · simp only [List.mem_singleton] at hx
        subst hx
        exact hhead

/-- Looking up the just-set key returns the just-set value. -/
theorem dictGet_dictSet (m : List (String × String)) (k v : String) :
    dictGet (dictSet m k v) k = some v := by
  induction m with
  | nil => simp [dictSet, dictGet]
  | cons kv m ih =>
    by_cases h : kv.1 = k
    · simp [dictSet, dictGet, h]
    · simp [dictSet, dictGet, h, ih]

/-- Updating a mapping never empties it. -/
theorem dictSet_ne_nil (m : List (String × String)) (k v : String) :
    dictSet m k v ≠ [] := by
  cases m with
  | nil => simp [dictSet]
  | cons kv m => simp only [dictSet]; split <;> simp

/-- Serialize/parse round trip: parsing the `name=value` lines of a
clean, distinct-keyed mapping rebuilds exactly that mapping. -/
theorem parseCreds_serializeCreds (m : List (String × String))
    (hclean : ∀ kv ∈ m, cleanPair kv = true)
    (hnodup : (m.map Prod.fst).Nodup) (hne : m ≠ []) :
    parseCreds (serializeCreds m) = m := by
  have hcleanP : ∀ kv ∈ m, ('=' : Char) ∉ kv.1.data ∧ ('\n' : Char) ∉ kv.1.data ∧
      pyStripList kv.1.data = kv.1.data ∧ ('\n' : Char) ∉ kv.2.data ∧
      pyStripList kv.2.data = kv.2.data := by
    intro kv hkv
    have := hclean kv hkv
    simp only [cleanPair, Bool.and_eq_true, decide_eq_true_eq] at this
    tauto
  have hlines : ∀ l ∈ m.map (fun kv => kv.1.data ++ '=' :: kv.2.data),
      ('\n' : Char) ∉ l := by
    intro l hl
    obtain ⟨kv, hkv, rfl⟩ := List.mem_map.mp hl
    obtain ⟨_, h2, _, h4, _⟩ := hcleanP kv hkv
    intro hmem
    rcases List.mem_append.mp hmem with h | h
    · exact h2 h
    · rcases List.mem_cons.mp h with h | h
      · exact absurd h (by decide)
      · exact h4 h
  have hmne : m.map (fun kv => kv.1.data ++ '=' :: kv.2.data) ≠ [] := by
    simpa using hne
  unfold parseCreds serializeCreds
  rw [show (⟨joinLines (m.map fun kv => kv.1.data ++ '=' :: kv.2.data)⟩ : String).data
      = joinLines (m.map fun kv => kv.1.data ++ '=' :: kv.2.data) from rfl]
  rw [splitOnChar_joinLines _ hlines hmne, List.foldl_map]
  have hstep : ∀ acc : List (String × String), ∀ kv ∈ m,
      (fun x (y : String × String) =>
        match splitFirstAt '=' (y.1.data ++ '=' :: y.2.data) with
        | some p => dictSet x ⟨pyStripList p.1⟩ ⟨pyStripList p.2⟩
        | none => x) acc kv =
      (fun acc (kv : String × String) => dictSet acc kv.1 kv.2) acc kv := by
    intro acc kv hkv
    obtain ⟨h1, _, h3, _, h5⟩ := hcleanP kv hkv
    simp only [splitFirstAt_append kv.1.data kv.2.data h1, h3, h5]
  rw [List.foldl_ext _ _ [] hstep]
  exact foldl_dictSet_eq m [] hnodup (by simp)

/-- C8: `set("k","v")` writes one encrypted blob such that a fresh
store constructed against the same file with the same cipher key parses
it back and `get("k")` returns `"v"` — for any prior mapping whose
entries survive the `name=value` line format (no separators inside
keys/values, strip-invariant) and whose keys are distinct. -/
theorem c8_persistence_round_trip
    (key : Nat) (creds : List (String × String)) (k v : String)
    (hclean : ∀ kv ∈ dictSet creds k v, cleanPair kv = true)
    (hnodup : ((dictSet creds k v).map Prod.fst).Nodup) :
    store_get (store_load key (some (store_set key creds k v).2)) k = some v := by
  have hload : store_load key (some (store_set key creds k v).2) = dictSet creds k v := by
    simp only [store_load, store_set, store_save, sm_decrypt, sm_encrypt,
      fernetEncrypt, fernetDecrypt, if_pos, ite_true]
    exact parseCreds_serializeCreds (dictSet creds k v) hclean hnodup
      (dictSet_ne_nil creds k v)
  unfold store_get
  rw [hload]
  exact dictGet_dictSet creds k v

/-- C8 (witness): the concrete spec scenario — a fresh store over the
blob written by `set("k","v")` answers `get("k") = "v"`. -/
theorem c8_witness :
    (∀ kv ∈ dictSet [] "k" "v", cleanPair kv = true) ∧
    ((dictSet ([] : List (String × String)) "k" "v").map Prod.fst).Nodup ∧
    store_get (store_load 7 (some (store_set 7 [] "k" "v").2)) "k" = some "v" :=
  ⟨by decide, by decide,
    c8_persistence_round_trip 7 [] "k" "v" (by decide) (by decide)⟩

/-! ## Theorems: classification of whitespace-only input

Every system pattern begins with `\b`, and a word boundary needs a word
character on exactly one side — so no system pattern can match inside a
string with no word characters at all. -/

/-- Whitespace characters are not word characters. -/
theorem isWordChar_of_pySpace (c : Char) (h : isPySpace c = true) :
    isWordChar c = false := by
  simp only [isPySpace, Bool.or_eq_true, decide_eq_true_eq] at h
  rcases h with ⟨⟨⟨⟨h | h⟩ | h⟩ | h⟩ | h⟩ | h <;> subst h <;> decide

/-- Lower-casing fixes whitespace characters. -/
theorem pyLowerChar_pySpace (c : Char) (h : isPySpace c = true) :
    pyLowerChar c = c := by
  simp only [isPySpace, Bool.or_eq_true, decide_eq_true_eq] at h
  rcases h with ⟨⟨⟨⟨h | h⟩ | h⟩ | h⟩ | h⟩ | h <;> subst h <;> decide

/-- At a failed boundary, `\b` yields no match. -/
theorem mrun_wordB_of_no_boundary (fuel : Nat) (prev : Option Char)
    (l : List Char) (h : wordBoundary prev l.head? = false) :
    mrun fuel .wordB prev l = [] := by
  cases fuel with
  | zero => rfl
  | succ f => simp [mrun, h]

/-- A pattern starting with `\b` yields no match at a failed boundary. -/
theorem mrun_cat_wordB_of_no_boundary (fuel : Nat) (r : Pat)
    (prev : Option Char) (l : List Char)
    (h : wordBoundary prev l.head? = false) :
    mrun fuel (.cat .wordB r) prev l = [] := by
  cases fuel with
  | zero => rfl
  | succ f => simp [mrun, mrun_wordB_of_no_boundary f prev l h]

/-- A `\b`-prefixed pattern matches nowhere in a subject with no word
characters (at any fuel and from any non-word left context). -/
theorem searchFrom_cat_wordB_no_word (r : Pat) (l : List Char) :
    ∀ (fuel : Nat) (prev : Option Char), optWord prev = false →
    (∀ c ∈ l, isWordChar c = false) →
    searchFrom fuel (.cat .wordB r) prev l = false := by
  induction l with
  | nil =>
    intro fuel prev hprev _
    have hb : wordBoundary prev (([] : List Char).head?) = false := by
      unfold wordBoundary
      rw [hprev]
      simp [optWord]
    rw [searchFrom, mrun_cat_wordB_of_no_boundary fuel r prev [] hb]
    simp
  | cons c l ih =>
    intro fuel prev hprev hall
    have hc : isWordChar c = false := hall c (List.mem_cons_self c l)
    have hb : wordBoundary prev ((c :: l).head?) = false := by
      unfold wordBoundary
      rw [hprev]
      simp [optWord, hc]
    rw [searchFrom, mrun_cat_wordB_of_no_boundary fuel r prev (c :: l) hb]
    simpa using ih fuel (some c) (by simp [optWord, hc])
      (fun x hx => hall x (List.mem_cons_of_mem c hx))

/-- C9: an input that is empty or all whitespace matches none of the
system-action patterns, and `_classify_intent` returns the AI-query
intent carrying the provider `_select_ai_provider` picks. -/
theorem c9_whitespace_is_ai_query
    (cfg : AIConfig) (s : String)
    (hws : ∀ c ∈ s.data, isPySpace c = true) :
    (∀ ip ∈ systemPatterns, reSearch ip.2 (pyLower s) = false) ∧
    classify_intent cfg s = .ai (select_ai_provider cfg s) := by
  have hnw : ∀ c ∈ (pyLower s).data, isWordChar c = false := by
    intro c hc
    have hc' : c ∈ s.data.map pyLowerChar := hc
    obtain ⟨c0, hc0, rfl⟩ := List.mem_map.mp hc'
    rw [pyLowerChar_pySpace c0 (hws c0 hc0)]
    exact isWordChar_of_pySpace c0 (hws c0 hc0)
  have hgen : ∀ q : Pat, reSearch (.cat .wordB q) (pyLower s) = false := by
    intro q
    exact searchFrom_cat_wordB_no_word q (pyLower s).data _ none rfl hnw
  have hall : ∀ ip ∈ systemPatterns, reSearch ip.2 (pyLower s) = false := by
    intro ip hip
    have hshape : ∃ q, ip.2 = Pat.cat .wordB q := by
      simp only [systemPatterns, List.mem_cons, List.not_mem_nil, or_false] at hip
      rcases hip with rfl | rfl | rfl | rfl | rfl | rfl | rfl | rfl | rfl | rfl | rfl <;>
        exact ⟨_, rfl⟩
    obtain ⟨q, hq⟩ := hshape
    rw [hq]
    exact hgen q
  refine ⟨hall, ?_⟩
  have hfind : systemPatterns.find? (fun ip => reSearch ip.2 (pyLower s)) = none := by
    rw [List.find?_eq_none]
    intro ip hip
    simp [hall ip hip]
  simp only [classify_intent, hfind]

/-- C9 (witness): the concrete whitespace-only input `" \t "` yields an
AI-query intent under the default configuration. -/
theorem c9_witness :
    (∀ c ∈ (" \t " : String).data, isPySpace c = true) ∧
    ((∀ ip ∈ systemPatterns, reSearch ip.2 (pyLower " \t ") = false) ∧
      classify_intent defaultAIConfig " \t " =
        .ai (select_ai_provider defaultAIConfig " \t ")) :=
  ⟨by decide, c9_whitespace_is_ai_query defaultAIConfig " \t " (by decide)⟩

end Maysie
